import Mathlib

/-!
Verification development for the faas-scheduler-testbed control plane
(scheduling and warm-state subsystem).

The Python sources are shallowly embedded:

* load metrics are rationals extended with a top element (`WithTop ℚ`),
  mirroring Python floats where a missing field defaults to `float('inf')`;
* Python dicts are association lists (`List (String × _)`), preserving
  insertion order, which is the dict iteration order the policies rely on;
* the node-metrics probe is an oracle `gm : String → Option Metric`
  (`None` models an unreachable node, exactly the `None` returned by
  `get_metrics_for_node` on any SSH/parse failure);
* remote command execution is an oracle returning `Except String String`;
* `itertools.cycle` over a frozen non-empty list is index arithmetic
  (`i % length`).

Each embedded definition cites the Python class/function it translates.
-/

/-- Load snapshot produced by `get_metrics_for_node`
(`src/api_gateway/node_manager.py` lines 33-44, `main.py` lines 46-57):
the parsed dict always carries both keys, with `float('inf')` (here `⊤`)
substituted for a missing field. -/
structure Metric where
  cpu_usage : WithTop ℚ
  ram_usage : WithTop ℚ
deriving DecidableEq

/-- Value of a cell of a metrics-log entry: the Python code stores either a
number or a placeholder string such as `"N/A"` / `"---"`. -/
inductive MetricCell where
  | num (q : WithTop ℚ)
  | str (s : String)
deriving DecidableEq

/-- One entry of the metrics log, as assembled by the selection policies:
`{"Function": _, "Node": _, "CPU Usage %": _, "RAM Usage %": _,
"Execution Mode": _}`. -/
structure MetricEntry where
  function : String
  node : String
  cpu : MetricCell
  ram : MetricCell
  executionMode : String
deriving DecidableEq

/-- `RAM_THRESHOLD = 90` from `src/api_gateway/state.py` line 11. -/
def RAM_THRESHOLD : WithTop ℚ := (90 : ℚ)

/-- `CONCURRENCY_LIMIT = 5` from `src/api_gateway/state.py` line 13. -/
def CONCURRENCY_LIMIT : Nat := 5

/-- The load score of `main.py` `LeastUsedPolicy.select_node` line 136:
`(metrics["cpu_usage"] + metrics["ram_usage"]) / 2`, with `⊤` absorbing
(as `inf` does for Python floats). -/
def halfLoad (m : Metric) : WithTop ℚ :=
  WithTop.map (fun q => q / 2) (m.cpu_usage + m.ram_usage)

/-- Internal state of `RoundRobinPolicy` (`src/api_gateway/policies.py`
lines 11-14): the `itertools.cycle` iterator is represented by the frozen
list it was built over plus the count of `next()` calls already served. -/
structure RRState where
  iterList : List String
  iterIdx : Nat
  cache : List String
deriving DecidableEq

/-- `RoundRobinPolicy.__init__`: `cycle([])` and an empty cache. -/
def RRState.init : RRState := ⟨[], 0, []⟩

/-- Outcome of `RoundRobinPolicy.select_node`, distinguishing the three
`return None, None` sites of the source. -/
inductive RRResult where
  | selected (node : String) (entry : MetricEntry)
  | noneEmptyNodes
  | noneStopIteration
  | noneNoEligible
deriving DecidableEq

/-- Lexicographic comparison of node names by code points, the order used
by Python's `sorted` on strings. Stated on the underlying character lists
so that it evaluates inside the kernel; it coincides with the string
order. -/
def nameLe (a b : String) : Prop := a.toList ≤ b.toList

instance : DecidableRel nameLe := fun a b =>
  (inferInstance : Decidable (a.toList ≤ b.toList))

instance : IsTotal String nameLe := ⟨fun a b => le_total a.toList b.toList⟩

instance : IsTrans String nameLe := ⟨fun _ _ _ h1 h2 => le_trans h1 h2⟩

/-- `sorted(list(nodes.keys()))` (`policies.py` line 20). -/
def sortedNames (nodes : List String) : List String :=
  List.insertionSort nameLe nodes

/-- The `for _ in range(nodes_to_check)` loop of
`RoundRobinPolicy.select_node` (`policies.py` lines 26-40): draw the next
cycled node (`next()` on `itertools.cycle(l)` yields `l[idx % len l]` and
advances, or raises `StopIteration` when `l` is empty), probe it, select
it when reachable and below the RAM threshold, otherwise discard it and
continue; the fuel is the number of candidates still allowed. Returns
the result and the final iterator index. -/
def rrLoop (gm : String → Option Metric) (fname : String) (l : List String) :
    Nat → Nat → RRResult × Nat
  | idx, 0 => (RRResult.noneNoEligible, idx)
  | idx, fuel + 1 =>
    if l = [] then (RRResult.noneStopIteration, idx)
    else
      match gm (l.getD (idx % l.length) "") with
      | some m =>
        if m.ram_usage < RAM_THRESHOLD then
          (RRResult.selected (l.getD (idx % l.length) "")
            { function := fname, node := l.getD (idx % l.length) "",
              cpu := MetricCell.num m.cpu_usage,
              ram := MetricCell.num m.ram_usage,
              executionMode := "Round Robin - Cold" }, idx + 1)
        else rrLoop gm fname l (idx + 1) fuel
      | none => rrLoop gm fname l (idx + 1) fuel

/-- Body of `RoundRobinPolicy.select_node` after the iterator/cache
refresh: run the candidate loop over `len(names)` draws from the live
iterator and store the advanced iterator position back in the state. -/
def rrAfterReset (gm : String → Option Metric) (fname : String)
    (names : List String) (s1 : RRState) : RRResult × RRState :=
  match rrLoop gm fname s1.iterList s1.iterIdx names.length with
  | (r, idx2) => (r, RRState.mk s1.iterList idx2 s1.cache)

/-- `RoundRobinPolicy.select_node` (`src/api_gateway/policies.py`
lines 16-43): empty registry short-circuits; a change of the sorted name
set rebuilds the cycle iterator and the cache; then up to `len(nodes)`
candidates are tried. -/
def RoundRobinPolicy.select_node (gm : String → Option Metric)
    (nodes : List String) (fname : String) (s : RRState) : RRResult × RRState :=
  if nodes = [] then (RRResult.noneEmptyNodes, s)
  else
    rrAfterReset gm fname (sortedNames nodes)
      (if sortedNames nodes = s.cache then s
       else RRState.mk (sortedNames nodes) 0 (sortedNames nodes))

/-- `n` consecutive calls of `RoundRobinPolicy.select_node` on a fixed
nodes registry, threading the policy state; returns the list of results
and the final state. -/
def rrRun (gm : String → Option Metric) (fname : String) (nodes : List String) :
    Nat → RRState → List RRResult × RRState
  | 0, s => ([], s)
  | n + 1, s =>
    match RoundRobinPolicy.select_node gm nodes fname s with
    | (r, s2) =>
      match rrRun gm fname nodes n s2 with
      | (rs, s3) => (r :: rs, s3)

/-- The selection `RoundRobinPolicy.select_node` produces for an eligible
node `n`: the node together with its metric entry. -/
def rrPick (gm : String → Option Metric) (fname n : String) : RRResult :=
  match gm n with
  | some m =>
    RRResult.selected n
      { function := fname, node := n, cpu := MetricCell.num m.cpu_usage,
        ram := MetricCell.num m.ram_usage, executionMode := "Round Robin - Cold" }
  | none => RRResult.noneNoEligible

/-- The reachable part of the parallel probe fan-out
(`LeastUsedPolicy._get_all_node_metrics`, `policies.py` lines 46-49 and
`main.py` lines 109-121): zip the node names with the probe results and
keep those that answered. Insertion order of the registry is preserved. -/
def liveMetrics (gm : String → Option Metric) (nodes : List String) :
    List (String × Metric) :=
  nodes.filterMap (fun n => (gm n).map (fun m => (n, m)))

/-- Python's `min(..., key=f)` over a non-empty sequence: the first
element attaining the minimal key (later elements replace the current
best only on a strictly smaller key). -/
def pickMinBy {α : Type} (f : α → WithTop ℚ) : List α → Option α
  | [] => none
  | x :: xs => some (xs.foldl (fun b y => if f y < f b then y else b) x)

/-- The `eligible_nodes` dict comprehension of `policies.py` lines 60-63:
reachable nodes whose `ram_usage` is strictly below the threshold. -/
def eligibleOf (gm : String → Option Metric) (nodes : List String) :
    List (String × Metric) :=
  (liveMetrics gm nodes).filter (fun p => decide (p.2.ram_usage < RAM_THRESHOLD))

/-- `LeastUsedPolicy.select_node` of the modular gateway
(`src/api_gateway/policies.py` lines 51-74): probe all nodes, drop the
unreachable ones, filter by the RAM threshold, then take
`min(eligible_nodes, key=lambda n: eligible_nodes[n]["cpu_usage"])` —
the minimum is by `cpu_usage` alone. `nodes` models the keys of the
node-registry dict (hence no duplicates). The final `if selected_node:`
truthiness test fails only for an empty node name. -/
def LeastUsedPolicy.select_node (gm : String → Option Metric)
    (nodes : List String) (fname : String) : Option (String × MetricEntry) :=
  if nodes = [] then none
  else if liveMetrics gm nodes = [] then none
  else if eligibleOf gm nodes = [] then none
  else
    match pickMinBy (fun p => p.2.cpu_usage) (eligibleOf gm nodes) with
    | none => none
    | some (n, m) =>
      if n = "" then none
      else some (n,
        { function := fname, node := n, cpu := MetricCell.num m.cpu_usage,
          ram := MetricCell.num m.ram_usage,
          executionMode := "Least Used - Cold" })

/-- The minimum scan of `main.py` lines 132-139, starting from
`min_load = float('inf')`, `selected_node = None`. -/
def mainLUFold (live : List (String × Metric)) : WithTop ℚ × Option String :=
  live.foldl
    (fun acc p => if halfLoad p.2 < acc.1 then (halfLoad p.2, some p.1) else acc)
    ((⊤ : WithTop ℚ), (none : Option String))

/-- `LeastUsedPolicy.select_node` of the monolithic gateway
(`src/api_gateway/main.py` lines 122-151): probe all nodes, drop the
unreachable ones, then scan for the minimal `(cpu + ram) / 2` starting
from `min_load = float('inf')`, `selected_node = None`; no RAM-threshold
filtering is performed. -/
def MainLeastUsedPolicy.select_node (gm : String → Option Metric)
    (nodes : List String) (fname : String) : Option (String × MetricEntry) :=
  if nodes = [] then none
  else if liveMetrics gm nodes = [] then none
  else
    match (mainLUFold (liveMetrics gm nodes)).2 with
    | none => none
    | some n =>
      match List.lookup n (liveMetrics gm nodes) with
      | none => none
      | some m =>
        if n = "" then none
        else some (n,
          { function := fname, node := n, cpu := MetricCell.num m.cpu_usage,
            ram := MetricCell.num m.ram_usage,
            executionMode := "Least Used - Cold" })

/-- Per-function warm states: the dict `node_name → "pre-warmed" | "warmed"`
stored under one function in `function_state_registry`. -/
abbrev FuncStates := List (String × String)

/-- `function_state_registry` (`src/api_gateway/state.py` line 5):
`function_name → (node_name → state)`. -/
abbrev WarmRegistry := List (String × FuncStates)

/-- The scan `for n, s in registry[function_name].items(): if s == v: return n`
used by `WarmedFirstPolicy` / `PreWarmedFirstPolicy`: first node whose
state equals `v`, in dict insertion order. -/
def findNodeWith (fs : FuncStates) (v : String) : Option String :=
  (fs.find? (fun p => p.2 == v)).map Prod.fst

/-- Result of one stage chain of the scheduling policies: a chosen node
with an optional metrics snapshot and an execution-mode string, or the
503 rejection raised by `DefaultColdPolicy`. -/
inductive ChainResult where
  | ok (node : String) (entry : Option MetricEntry) (mode : String)
  | unavailable
deriving DecidableEq

/-- `DefaultColdPolicy.select_node` (`policies.py` lines 101-107,
`main.py` lines 195-206): delegate to the configured default scheduling
policy, whose result is the parameter `cold`; no node raises the 503
`HTTPException`, otherwise the execution mode is read back from the
metric entry's `"Execution Mode"` field. -/
def DefaultColdPolicy.select_node (cold : Option (String × MetricEntry)) :
    ChainResult :=
  match cold with
  | none => ChainResult.unavailable
  | some (n, e) => ChainResult.ok n (some e) e.executionMode

/-- `PreWarmedFirstPolicy.select_node` (`policies.py` lines 93-99,
`main.py` lines 180-193): first node in state `"pre-warmed"` for this
function, with no metrics snapshot; otherwise fall through to
`DefaultColdPolicy`. -/
def PreWarmedFirstPolicy.select_node (reg : WarmRegistry) (fn : String)
    (cold : Option (String × MetricEntry)) : ChainResult :=
  match (List.lookup fn reg).bind (fun fs => findNodeWith fs "pre-warmed") with
  | some n => ChainResult.ok n none "pre-warmed"
  | none => DefaultColdPolicy.select_node cold

/-- `WarmedFirstPolicy.select_node` (`policies.py` lines 85-91,
`main.py` lines 165-178): first node in state `"warmed"` for this
function, with no metrics snapshot; otherwise fall through to
`PreWarmedFirstPolicy`. -/
def WarmedFirstPolicy.select_node (reg : WarmRegistry) (fn : String)
    (cold : Option (String × MetricEntry)) : ChainResult :=
  match (List.lookup fn reg).bind (fun fs => findNodeWith fs "warmed") with
  | some n => ChainResult.ok n none "warmed"
  | none => PreWarmedFirstPolicy.select_node reg fn cold

/-- Warm state recorded for `(fn, n)`: `registry[fn][n]`, `none` meaning
COLD (absent key). -/
def stateOf (reg : WarmRegistry) (fn n : String) : Option String :=
  (List.lookup fn reg).bind (fun fs => List.lookup n fs)

/-- Python dict assignment `d[k] = v` on an association list: overwrite
in place when the key exists, else append (dict insertion order). -/
def setAssoc (l : List (String × String)) (k v : String) :
    List (String × String) :=
  match List.lookup k l with
  | none => l ++ [(k, v)]
  | some _ => l.map (fun q => if q.1 = k then (k, v) else q)

/-- The state update of the warming operations
(`node_manager.py` lines 57-59 and 77-79): create the per-function dict
when absent, then assign `registry[fn][n] = v`. -/
def setWarmState (reg : WarmRegistry) (fn n v : String) : WarmRegistry :=
  match List.lookup fn reg with
  | none => reg ++ [(fn, [(n, v)])]
  | some _ => reg.map (fun p => if p.1 = fn then (fn, setAssoc p.2 n v) else p)

/-- Function descriptor stored by `register_function`: image and command. -/
structure FuncInfo where
  image : String
  command : String
deriving DecidableEq

/-- Node connection parameters stored by `register_node`; consumed only by
the SSH layer. -/
structure NodeInfo where
  host : String
  port : Nat
  username : String
  password : String
deriving DecidableEq

/-- Deterministic standing-container name
`CONTAINER_PREFIX + function + "--" + node` with
`CONTAINER_PREFIX = "faas-scheduler--"` (`state.py` line 8,
`main.py` line 29). -/
def warmedContainerName (fn n : String) : String :=
  "faas-scheduler--" ++ fn ++ "--" ++ n

/-- The remote command issued by `prewarm_function_on_node`. -/
def pullCmdFor (image : String) : String := "sudo docker pull " ++ image

/-- The remote command issued by `warmup_function_on_node`. -/
def warmupCmdFor (fn n image : String) : String :=
  "sudo docker run -d --name " ++ warmedContainerName fn n ++ " " ++ image
    ++ " sleep infinity"

/-- `prewarm_function_on_node` (`src/api_gateway/node_manager.py`
lines 46-61; `main.py` lines 324-339 is identical up to registry access):
silently return when either name is unregistered; otherwise run a single
`docker pull` over SSH; on success set the state to `"pre-warmed"`; on
failure the `except` clause only prints, so the registry is unchanged.
Result: the issued `(node, command)` trace, the new warm registry, and
the exception propagated to the caller (`none` on every path, because
every error is caught). -/
def prewarm_function_on_node (funcs : List (String × FuncInfo))
    (nodesReg : List (String × NodeInfo)) (reg : WarmRegistry)
    (runSSH : String → String → Except String String) (fn n : String) :
    List (String × String) × WarmRegistry × Option String :=
  match List.lookup fn funcs, List.lookup n nodesReg with
  | some fi, some _ =>
    (match runSSH n (pullCmdFor fi.image) with
     | Except.ok _ =>
       ([(n, pullCmdFor fi.image)], setWarmState reg fn n "pre-warmed", none)
     | Except.error _ => ([(n, pullCmdFor fi.image)], reg, none))
  | _, _ => ([], reg, none)

/-- `warmup_function_on_node` (`src/api_gateway/node_manager.py`
lines 64-81; `main.py` lines 342-359 is identical up to registry access):
silently return when either name is unregistered; otherwise run a single
detached `docker run ... sleep infinity` over SSH — no removal of any
pre-existing container is attempted; on success set the state to
`"warmed"`; on failure the `except` clause only prints. Result shape as
for `prewarm_function_on_node`. -/
def warmup_function_on_node (funcs : List (String × FuncInfo))
    (nodesReg : List (String × NodeInfo)) (reg : WarmRegistry)
    (runSSH : String → String → Except String String) (fn n : String) :
    List (String × String) × WarmRegistry × Option String :=
  match List.lookup fn funcs, List.lookup n nodesReg with
  | some fi, some _ =>
    (match runSSH n (warmupCmdFor fn n fi.image) with
     | Except.ok _ =>
       ([(n, warmupCmdFor fn n fi.image)], setWarmState reg fn n "warmed", none)
     | Except.error _ => ([(n, warmupCmdFor fn n fi.image)], reg, none))
  | _, _ => ([], reg, none)

/-- `EXECUTION_MODE_MAP.get(execution_mode, execution_mode)`
(`main.py` lines 41-44 and 374). -/
def modeLabel (m : String) : String :=
  if m = "cold" then "Cold"
  else if m = "pre-warmed" then "Pre-warmed"
  else if m = "warmed" then "Warmed"
  else m

/-- The module-level binding of the name `node_info` in `main.py`: no
assignment to `node_info` exists at module scope anywhere in the file
(it is only a local of `invoke_function` and a parameter of other
functions), so the global lookup finds nothing. -/
def mainGlobalNodeInfo : Option NodeInfo := none

/-- `write_metrics` of the monolithic gateway (`src/api_gateway/main.py`
lines 361-379): when the scheduling stage produced no snapshot it
evaluates `_get_metrics_for_node(node_name, node_info)`, where `node_info`
resolves as a module global; since `main.py` binds no such global, this
raises `NameError` before anything else happens. The table/plot rendering
and the in-memory log append after the entry is built are I/O glue not
modelled here. -/
def write_metrics (mtw : Option MetricEntry) (fn nodeName mode : String)
    (probe : NodeInfo → Option Metric) : Except String MetricEntry :=
  match mtw with
  | none =>
    (match mainGlobalNodeInfo with
     | none => Except.error "NameError: name node_info is not defined"
     | some ni =>
       (match probe ni with
        | some m =>
          Except.ok
            { function := fn, node := nodeName, cpu := MetricCell.num m.cpu_usage,
              ram := MetricCell.num m.ram_usage, executionMode := modeLabel mode }
        | none =>
          Except.ok
            { function := fn, node := nodeName, cpu := MetricCell.str "---",
              ram := MetricCell.str "---", executionMode := modeLabel mode }))
  | some e => Except.ok { e with executionMode := modeLabel mode }

/-- What the caller of `POST /functions/invoke/{fn}` observes. -/
inductive InvokeOutcome where
  | ok
  | httpError (code : Nat) (detail : String)
deriving DecidableEq

/-- The docker command built by `invoke_function` (`main.py`
lines 299-310): `docker exec` into the standing container for a warmed
execution, otherwise a fresh auto-removed `docker run` with a
process-unique name (`uid` models the uuid slice). -/
def invokeCmd (fi : FuncInfo) (fn nodeName mode uid : String) : String :=
  if mode = "warmed" then
    "sudo docker exec " ++ warmedContainerName fn nodeName ++ " " ++ fi.command
  else
    "sudo docker run --rm --name " ++ ("faas-scheduler--" ++ fn ++ "--" ++ uid)
      ++ " " ++ fi.image ++ " " ++ fi.command

/-- `invoke_function` of the monolithic gateway (`src/api_gateway/main.py`
lines 285-322): 404 for an unknown function, 503 for an empty node
registry, then the warmed-first chain picks node/mode (its 503 propagates),
`node_registry[node_name]` is read (an unregistered warm node raises an
uncaught `KeyError`, a 500-class failure), the docker command runs over
SSH inside `try`, and on success `write_metrics` runs still inside the
`try`; any exception there is answered as HTTP 500. `cold` is the result
of the configured default scheduling policy, `uid` the uuid slice. -/
def invoke_function (funcs : List (String × FuncInfo))
    (nodesReg : List (String × NodeInfo)) (reg : WarmRegistry)
    (cold : Option (String × MetricEntry))
    (runSSH : String → String → Except String String)
    (probe : NodeInfo → Option Metric) (uid fn : String) : InvokeOutcome :=
  match List.lookup fn funcs with
  | none => InvokeOutcome.httpError 404 "Funzione non trovata."
  | some fi =>
    if nodesReg = [] then
      InvokeOutcome.httpError 503 "Nessun nodo disponibile per l'esecuzione."
    else
      match WarmedFirstPolicy.select_node reg fn cold with
      | ChainResult.unavailable =>
        InvokeOutcome.httpError 503 "Nessun nodo disponibile."
      | ChainResult.ok nodeName mtw mode =>
        match List.lookup nodeName nodesReg with
        | none => InvokeOutcome.httpError 500 "KeyError: node_info"
        | some _ =>
          match runSSH nodeName (invokeCmd fi fn nodeName mode uid) with
          | Except.error e => InvokeOutcome.httpError 500 e
          | Except.ok _ =>
            match write_metrics mtw fn nodeName mode probe with
            | Except.ok _ => InvokeOutcome.ok
            | Except.error e => InvokeOutcome.httpError 500 e

/-- Modelled from the spec: the one-shot consumption of a PRE_WARMED
entry (§3 WarmState and §4.3: "on successful completion of a PRE_WARMED
execution, the WarmState entry for that (function, node) is reverted to
COLD"). The modular gateway's invoke handler, which performs this revert
after the remote execution, is not among the sources; the spec allows
"key removed or set to COLD" and the removal variant is modelled. -/
def consumePrewarm (reg : WarmRegistry) (fn n : String) : WarmRegistry :=
  reg.map (fun p => if p.1 = fn then (fn, p.2.filter (fun q => q.1 != n)) else p)

/-- Modelled from the spec: one invocation of the modular gateway's
missing invoke handler, reduced to its effect on the warm registry —
resolve node and mode through the real `WarmedFirstPolicy` chain, then,
exactly when the execution succeeded and the mode was `"pre-warmed"`,
revert the consumed entry; a WARMED execution never reverts. -/
def modularInvoke (reg : WarmRegistry) (fn : String)
    (cold : Option (String × MetricEntry)) (execOk : Bool) :
    ChainResult × WarmRegistry :=
  match WarmedFirstPolicy.select_node reg fn cold with
  | ChainResult.ok n e m =>
    if execOk && (m == "pre-warmed") then
      (ChainResult.ok n e m, consumePrewarm reg fn n)
    else (ChainResult.ok n e m, reg)
  | ChainResult.unavailable => (ChainResult.unavailable, reg)

/-- State of the admission gate: the invocations currently inside the
critical section, by identifier. -/
structure GateState where
  inside : List Nat
deriving DecidableEq

/-- Modelled from the spec (§4.4 AdmissionGate; the declared
`CONCURRENCY_LIMIT` of `state.py` has no user under the sources): an
invocation enters the critical section only while strictly fewer than
`limit` are inside, otherwise it must wait. -/
def tryEnter (limit : Nat) (s : GateState) (i : Nat) : Option GateState :=
  if s.inside.length < limit then some ⟨i :: s.inside⟩ else none

/-- Modelled from the spec: leaving the critical section releases the
slot on success and failure alike — the outcome flag does not influence
the state. -/
def gateRelease (s : GateState) (i : Nat) (_success : Bool) : GateState :=
  ⟨s.inside.erase i⟩

/-- States of the admission gate reachable from the empty gate by enters
and releases. -/
inductive GateReach (limit : Nat) : GateState → Prop where
  | init : GateReach limit ⟨[]⟩
  | enter {s s' : GateState} {i : Nat} :
      GateReach limit s → tryEnter limit s i = some s' → GateReach limit s'
  | release {s : GateState} {i : Nat} {b : Bool} :
      GateReach limit s → GateReach limit (gateRelease s i b)

/-- Concrete node connection parameters used in witness instantiations. -/
def niEx : NodeInfo := ⟨"10.0.0.1", 22, "user", "pw"⟩

/-- Concrete probe used by the round-robin witnesses: both nodes
reachable and well below the RAM threshold. -/
def gmB5 : String → Option Metric := fun n =>
  if n = "a" then some ⟨((5 : ℚ) : WithTop ℚ), ((5 : ℚ) : WithTop ℚ)⟩
  else if n = "b" then some ⟨((10 : ℚ) : WithTop ℚ), ((20 : ℚ) : WithTop ℚ)⟩
  else none

/-- Concrete probe exhibiting the least-used divergence: node `A` has the
smallest `cpu_usage` (1) but much the larger mean load ((1+80)/2 = 40.5),
node `B` the smaller mean load ((10+10)/2 = 10). -/
def gmC3 : String → Option Metric := fun n =>
  if n = "A" then some ⟨((1 : ℚ) : WithTop ℚ), ((80 : ℚ) : WithTop ℚ)⟩
  else if n = "B" then some ⟨((10 : ℚ) : WithTop ℚ), ((10 : ℚ) : WithTop ℚ)⟩
  else none

/-- Concrete probe reporting `ram_usage = 95`, above the threshold 90. -/
def gmOver : String → Option Metric := fun _ =>
  some ⟨((10 : ℚ) : WithTop ℚ), ((95 : ℚ) : WithTop ℚ)⟩

/- ------------------------------------------------------------------ -/
/- Helper lemmas.                                                      -/
/- ------------------------------------------------------------------ -/

theorem lookup_append_of_none {β : Type} (l l2 : List (String × β)) (k : String)
    (h : List.lookup k l = none) :
    List.lookup k (l ++ l2) = List.lookup k l2 := by
  induction l with
  | nil => rfl
  | cons q t ih =>
    obtain ⟨k2, v⟩ := q
    cases hk : (k == k2) with
    | true =>
      simp only [List.lookup_cons, hk] at h
      exact Option.noConfusion h
    | false =>
      simp only [List.lookup_cons, hk] at h
      simp only [List.cons_append, List.lookup_cons, hk]
      exact ih h

theorem lookup_map_update {β : Type} (l : List (String × β)) (k : String)
    (g : β → β) :
    List.lookup k (l.map (fun q => if q.1 = k then (k, g q.2) else q))
      = (List.lookup k l).map g := by
  induction l with
  | nil => rfl
  | cons q t ih =>
    obtain ⟨k2, v⟩ := q
    by_cases h : k2 = k
    · subst h
      simp [List.lookup_cons]
    · have hk : (k == k2) = false := beq_false_of_ne (fun he => h he.symm)
      simp [List.lookup_cons, h, hk, ih]

theorem lookup_filter_ne_none (l : List (String × String)) (n : String) :
    List.lookup n (l.filter (fun q => q.1 != n)) = none := by
  induction l with
  | nil => rfl
  | cons q t ih =>
    obtain ⟨k2, v⟩ := q
    by_cases h : k2 = n
    · simp [List.filter_cons, h, ih]
    · have hk : (n == k2) = false := beq_false_of_ne (fun he => h he.symm)
      simp [List.filter_cons, h, hk, List.lookup_cons, ih]

theorem findNodeWith_filter_ne (l : List (String × String)) (n v : String) :
    findNodeWith (l.filter (fun q => q.1 != n)) v ≠ some n := by
  intro h
  rw [findNodeWith] at h
  cases hf : List.find? (fun p => p.2 == v) (l.filter (fun q => q.1 != n)) with
  | none => rw [hf] at h; exact Option.noConfusion h
  | some q =>
    rw [hf] at h
    have hq : q ∈ l.filter (fun p => p.1 != n) := List.mem_of_find?_eq_some hf
    have hne : q.1 ≠ n := by simpa using (List.mem_filter.mp hq).2
    exact hne (by simpa using h)

/- ------------------------------------------------------------------ -/
/- C5: WARMED beats PRE_WARMED in the scheduling chain.                -/
/- ------------------------------------------------------------------ -/

/-- C5. When the warm registry holds exactly `(f, n1) = WARMED` and
`(f, n2) = PRE_WARMED` (in either dict order), the scheduling chain
WarmedFirst → PreWarmedFirst → DefaultCold selects `n1` with execution
mode `"warmed"`, and never selects `n2`, whatever the default cold
policy would answer. -/
theorem c5_chain_prefers_warmed (reg : WarmRegistry) (fn n1 n2 : String)
    (fs : FuncStates) (cold : Option (String × MetricEntry))
    (hlk : List.lookup fn reg = some fs)
    (hfs : fs = [(n1, "warmed"), (n2, "pre-warmed")]
         ∨ fs = [(n2, "pre-warmed"), (n1, "warmed")])
    (hne : n1 ≠ n2) :
    WarmedFirstPolicy.select_node reg fn cold = ChainResult.ok n1 none "warmed"
    ∧ ∀ e m, WarmedFirstPolicy.select_node reg fn cold ≠ ChainResult.ok n2 e m := by
  have hfind : findNodeWith fs "warmed" = some n1 := by
    cases hfs with
    | inl h => subst h; rfl
    | inr h => subst h; rfl
  have hsel : WarmedFirstPolicy.select_node reg fn cold
      = ChainResult.ok n1 none "warmed" := by
    rw [WarmedFirstPolicy.select_node, hlk, Option.some_bind, hfind]
  refine ⟨hsel, ?_⟩
  intro e m h
  rw [hsel] at h
  injection h with h1 h2 h3
  exact hne h1

/-- Witness for C5 at a concrete registry, in both dict orders. -/
theorem c5_witness :
    WarmedFirstPolicy.select_node [("f", [("n1", "warmed"), ("n2", "pre-warmed")])]
        "f" none = ChainResult.ok "n1" none "warmed"
    ∧ WarmedFirstPolicy.select_node [("f", [("n2", "pre-warmed"), ("n1", "warmed")])]
        "f" none = ChainResult.ok "n1" none "warmed" := by
  refine ⟨?_, ?_⟩
  · exact (c5_chain_prefers_warmed [("f", [("n1", "warmed"), ("n2", "pre-warmed")])]
      "f" "n1" "n2" [("n1", "warmed"), ("n2", "pre-warmed")] none (by decide)
      (Or.inl rfl) (by decide)).1
  · exact (c5_chain_prefers_warmed [("f", [("n2", "pre-warmed"), ("n1", "warmed")])]
      "f" "n1" "n2" [("n2", "pre-warmed"), ("n1", "warmed")] none (by decide)
      (Or.inr rfl) (by decide)).1

/- ------------------------------------------------------------------ -/
/- C10: the StopIteration branch is unreachable on a non-empty map.    -/
/- ------------------------------------------------------------------ -/

theorem rrLoop_ne_stop (gm : String → Option Metric) (fname : String)
    (l : List String) (hl : l ≠ []) :
    ∀ fuel idx, (rrLoop gm fname l idx fuel).1 ≠ RRResult.noneStopIteration := by
  intro fuel
  induction fuel with
  | zero =>
    intro idx h
    rw [rrLoop] at h
    exact RRResult.noConfusion h
  | succ k ih =>
    intro idx
    rw [rrLoop, if_neg hl]
    cases hg : gm (l.getD (idx % l.length) "") with
    | some m =>
      simp only [hg]
      by_cases hr : m.ram_usage < RAM_THRESHOLD
      · simp only [if_pos hr]
        intro h
        exact RRResult.noConfusion h
      · simp only [if_neg hr]
        exact ih (idx + 1)
    | none =>
      simp only [hg]
      exact ih (idx + 1)

theorem sortedNames_ne_nil (nodes : List String) (hne : nodes ≠ []) :
    sortedNames nodes ≠ [] := by
  intro h
  apply hne
  have hlen := List.length_insertionSort nameLe nodes
  rw [sortedNames] at h
  rw [h] at hlen
  exact List.length_eq_zero.mp hlen.symm

/-- C10. From any policy state satisfying the representation invariant
(the cycle iterator was built over the cached name list — established by
`RoundRobinPolicy.__init__` and preserved by every call), a call on a
non-empty nodes map never returns through the `StopIteration` branch, the
invariant is preserved, and the initial state satisfies the invariant. -/
theorem c10_no_stopiteration (gm : String → Option Metric) (fname : String)
    (nodes : List String) (s : RRState)
    (hinv : s.iterList = s.cache) (hne : nodes ≠ []) :
    (RoundRobinPolicy.select_node gm nodes fname s).1 ≠ RRResult.noneStopIteration
    ∧ ((RoundRobinPolicy.select_node gm nodes fname s).2).iterList
        = ((RoundRobinPolicy.select_node gm nodes fname s).2).cache
    ∧ RRState.init.iterList = RRState.init.cache := by
  have hnames : sortedNames nodes ≠ [] := sortedNames_ne_nil nodes hne
  rw [RoundRobinPolicy.select_node, if_neg hne]
  by_cases hc : sortedNames nodes = s.cache
  · rw [if_pos hc, rrAfterReset]
    have hl : s.iterList ≠ [] := by rw [hinv, ← hc]; exact hnames
    refine ⟨?_, hinv, rfl⟩
    have := rrLoop_ne_stop gm fname s.iterList hl (sortedNames nodes).length s.iterIdx
    cases hres : rrLoop gm fname s.iterList s.iterIdx (sortedNames nodes).length with
    | mk r idx2 =>
      rw [hres] at this
      simpa [hres] using this
  · rw [if_neg hc, rrAfterReset]
    refine ⟨?_, rfl, rfl⟩
    have := rrLoop_ne_stop gm fname (sortedNames nodes) hnames
      (sortedNames nodes).length 0
    cases hres : rrLoop gm fname (sortedNames nodes) 0 (sortedNames nodes).length with
    | mk r idx2 =>
      rw [hres] at this
      simpa [hres] using this

/-- Witness for C10 at the initial state and a one-node registry. -/
theorem c10_witness :
    (RoundRobinPolicy.select_node gmOver ["n1"] "f" RRState.init).1
        ≠ RRResult.noneStopIteration
    ∧ ((RoundRobinPolicy.select_node gmOver ["n1"] "f" RRState.init).2).iterList
        = ((RoundRobinPolicy.select_node gmOver ["n1"] "f" RRState.init).2).cache := by
  have h := c10_no_stopiteration gmOver "f" ["n1"] RRState.init rfl (by decide)
  exact ⟨h.1, h.2.1⟩

/- ------------------------------------------------------------------ -/
/- C8: round-robin fairness over a stable node set.                    -/
/- ------------------------------------------------------------------ -/

theorem rrSelect_step (gm : String → Option Metric) (fn : String)
    (nodes names : List String) (i : Nat) (m : Metric)
    (hn : names = sortedNames nodes) (hne : nodes ≠ []) (hi : i < names.length)
    (hgm : gm (names.getD i "") = some m)
    (hram : m.ram_usage < RAM_THRESHOLD) :
    RoundRobinPolicy.select_node gm nodes fn ⟨names, i, names⟩
      = (RRResult.selected (names.getD i "")
          ⟨fn, names.getD i "", MetricCell.num m.cpu_usage,
            MetricCell.num m.ram_usage, "Round Robin - Cold"⟩,
         ⟨names, i + 1, names⟩) := by
  have hl : names ≠ [] := by rw [hn]; exact sortedNames_ne_nil nodes hne
  rw [RoundRobinPolicy.select_node, if_neg hne, ← hn, if_pos rfl, rrAfterReset]
  obtain ⟨k, hk⟩ : ∃ k, names.length = k + 1 :=
    ⟨names.length - 1, (Nat.succ_pred_eq_of_pos (Nat.lt_of_le_of_lt (Nat.zero_le i) hi)).symm⟩
  rw [hk, rrLoop, if_neg hl, Nat.mod_eq_of_lt hi]
  simp only [hgm, if_pos hram]

theorem rrSelect_init (gm : String → Option Metric) (fn : String)
    (nodes : List String) (hne : nodes ≠ []) :
    RoundRobinPolicy.select_node gm nodes fn RRState.init
      = RoundRobinPolicy.select_node gm nodes fn
          ⟨sortedNames nodes, 0, sortedNames nodes⟩ := by
  rw [RoundRobinPolicy.select_node, RoundRobinPolicy.select_node,
    if_neg hne, if_neg hne]
  have h := sortedNames_ne_nil nodes hne
  simp [RRState.init, h]

theorem rrRun_init (gm : String → Option Metric) (fn : String)
    (nodes : List String) (hne : nodes ≠ []) (k : Nat) :
    rrRun gm fn nodes (k + 1) RRState.init
      = rrRun gm fn nodes (k + 1) ⟨sortedNames nodes, 0, sortedNames nodes⟩ := by
  rw [rrRun, rrRun, rrSelect_init gm fn nodes hne]

theorem rrRun_go (gm : String → Option Metric) (fn : String)
    (nodes names : List String)
    (hn : names = sortedNames nodes) (hne : nodes ≠ [])
    (helig : ∀ nd ∈ names, ∃ m, gm nd = some m ∧ m.ram_usage < RAM_THRESHOLD) :
    ∀ (t : List String) (i : Nat), names.drop i = t →
      (rrRun gm fn nodes t.length ⟨names, i, names⟩).1 = t.map (rrPick gm fn) := by
  intro t
  induction t with
  | nil => intro i _; rfl
  | cons x t2 ih =>
    intro i hdrop
    have hi : i < names.length := by
      by_contra hge
      push_neg at hge
      rw [List.drop_eq_nil_of_le hge] at hdrop
      exact List.noConfusion hdrop
    have hsplit := List.drop_eq_getElem_cons hi
    rw [hdrop] at hsplit
    injection hsplit with h1 h2
    have hgd : names.getD i "" = x := by
      rw [List.getD_eq_getElem?_getD, List.getElem?_eq_getElem hi]
      exact h1.symm
    have hmem : x ∈ names := by
      rw [h1]
      exact List.getElem_mem hi
    obtain ⟨m, hgm, hram⟩ := helig x hmem
    have hgm2 : gm (names.getD i "") = some m := by rw [hgd]; exact hgm
    have hstep := rrSelect_step gm fn nodes names i m hn hne hi hgm2 hram
    simp only [List.length_cons]
    rw [rrRun, hstep]
    have hih := ih (i + 1) h2.symm
    simp only [List.map_cons, rrPick, hgm, hgd]
    rw [hih]

/-- C8. For a non-empty, duplicate-free node set with every node
reachable and below the RAM threshold (no metrics filtering engaged),
`N = len(nodes)` consecutive `RoundRobinPolicy.select_node` calls from
the freshly constructed policy return exactly the sorted name list —
each node exactly once, in sorted-name order. -/
theorem c8_round_robin_fairness (gm : String → Option Metric) (fn : String)
    (nodes : List String) (hne : nodes ≠ []) (hnd : nodes.Nodup)
    (helig : ∀ nd ∈ nodes, ∃ m, gm nd = some m ∧ m.ram_usage < RAM_THRESHOLD) :
    (rrRun gm fn nodes (sortedNames nodes).length RRState.init).1
        = (sortedNames nodes).map (rrPick gm fn)
    ∧ (sortedNames nodes).Sorted nameLe
    ∧ ∀ nd ∈ nodes, (sortedNames nodes).count nd = 1 := by
  have helig2 : ∀ nd ∈ sortedNames nodes,
      ∃ m, gm nd = some m ∧ m.ram_usage < RAM_THRESHOLD := by
    intro nd hm
    rw [sortedNames] at hm
    exact helig nd ((List.mem_insertionSort nameLe).mp hm)
  refine ⟨?_, ?_, ?_⟩
  · obtain ⟨k, hk⟩ : ∃ k, (sortedNames nodes).length = k + 1 := by
      refine ⟨(sortedNames nodes).length - 1, ?_⟩
      have hpos : 0 < (sortedNames nodes).length :=
        List.length_pos.mpr (sortedNames_ne_nil nodes hne)
      exact (Nat.succ_pred_eq_of_pos hpos).symm
    have hgo := rrRun_go gm fn nodes (sortedNames nodes) rfl hne helig2
      (sortedNames nodes) 0 (List.drop_zero _)
    rw [hk] at hgo ⊢
    rw [rrRun_init gm fn nodes hne k]
    exact hgo
  · exact List.sorted_insertionSort nameLe nodes
  · intro nd hm
    rw [sortedNames, (List.perm_insertionSort nameLe nodes).count_eq]
    exact List.count_eq_one_of_mem hnd hm

/-- Witness for C8: two nodes registered as `["b", "a"]`, both eligible;
the two consecutive selections return `a` then `b`, each exactly once. -/
theorem c8_witness :
    (rrRun gmB5 "f" ["b", "a"] 2 RRState.init).1
        = [rrPick gmB5 "f" "a", rrPick gmB5 "f" "b"]
    ∧ (sortedNames ["b", "a"]).count "a" = 1 := by
  have h := c8_round_robin_fairness gmB5 "f" ["b", "a"] (by decide) (by decide)
    (by
      intro nd hm
      fin_cases hm
      · exact ⟨⟨((10 : ℚ) : WithTop ℚ), ((20 : ℚ) : WithTop ℚ)⟩, by decide, by decide⟩
      · exact ⟨⟨((5 : ℚ) : WithTop ℚ), ((5 : ℚ) : WithTop ℚ)⟩, by decide, by decide⟩)
  refine ⟨?_, h.2.2 "a" (by decide)⟩
  have h1 := h.1
  rw [show sortedNames ["b", "a"] = ["a", "b"] from by decide] at h1
  exact h1

/- ------------------------------------------------------------------ -/
/- C4 / C3: RAM-threshold exclusion and the least-used score.          -/
/- ------------------------------------------------------------------ -/

theorem foldl_min_mem {α : Type} (f : α → WithTop ℚ) :
    ∀ (xs : List α) (b : α),
      xs.foldl (fun b y => if f y < f b then y else b) b ∈ b :: xs := by
  intro xs
  induction xs with
  | nil => intro b; exact List.mem_singleton.mpr rfl
  | cons y ys ih =>
    intro b
    rw [List.foldl_cons]
    by_cases hy : f y < f b
    · rw [if_pos hy]
      exact List.mem_cons_of_mem b (ih y)
    · rw [if_neg hy]
      rcases List.mem_cons.mp (ih b) with h | h
      · rw [h]; exact List.mem_cons_self b (y :: ys)
      · exact List.mem_cons_of_mem b (List.mem_cons_of_mem y h)

theorem pickMinBy_mem {α : Type} (f : α → WithTop ℚ) (l : List α) (a : α)
    (h : pickMinBy f l = some a) : a ∈ l := by
  cases l with
  | nil => exact Option.noConfusion h
  | cons x xs =>
    rw [pickMinBy] at h
    injection h with h1
    rw [← h1]
    exact foldl_min_mem f xs x

theorem liveMetrics_mem (gm : String → Option Metric) (nodes : List String)
    (nd : String) (m : Metric) (h : (nd, m) ∈ liveMetrics gm nodes) :
    gm nd = some m := by
  rw [liveMetrics] at h
  obtain ⟨n2, _, hmap⟩ := List.mem_filterMap.mp h
  cases hg : gm n2 with
  | none => rw [hg] at hmap; exact Option.noConfusion hmap
  | some m2 =>
    rw [hg] at hmap
    have h5 : (n2, m2) = (nd, m) := Option.some.inj hmap
    have h1 : n2 = nd := congrArg Prod.fst h5
    have h2 : m2 = m := congrArg Prod.snd h5
    rw [← h1, hg, h2]

theorem rrLoop_selected (gm : String → Option Metric) (fname : String)
    (l : List String) (nd : String) (e : MetricEntry) :
    ∀ fuel idx, (rrLoop gm fname l idx fuel).1 = RRResult.selected nd e →
      ∃ m, gm nd = some m ∧ m.ram_usage < RAM_THRESHOLD := by
  intro fuel
  induction fuel with
  | zero =>
    intro idx h
    rw [rrLoop] at h
    exact RRResult.noConfusion h
  | succ k ih =>
    intro idx h
    rw [rrLoop] at h
    by_cases hl : l = []
    · rw [if_pos hl] at h
      exact RRResult.noConfusion h
    · rw [if_neg hl] at h
      cases hg : gm (l.getD (idx % l.length) "") with
      | some m =>
        simp only [hg] at h
        by_cases hr : m.ram_usage < RAM_THRESHOLD
        · rw [if_pos hr] at h
          have hnd : l.getD (idx % l.length) "" = nd := by
            injection h with h1 h2
          rw [hnd] at hg
          exact ⟨m, hg, hr⟩
        · rw [if_neg hr] at h
          exact ih (idx + 1) h
      | none =>
        simp only [hg] at h
        exact ih (idx + 1) h

theorem lu_selected (gm : String → Option Metric) (nodes : List String)
    (fname nd : String) (e : MetricEntry)
    (h : LeastUsedPolicy.select_node gm nodes fname = some (nd, e)) :
    ∃ m, gm nd = some m ∧ m.ram_usage < RAM_THRESHOLD := by
  rw [LeastUsedPolicy.select_node] at h
  by_cases h1 : nodes = []
  · rw [if_pos h1] at h; exact Option.noConfusion h
  rw [if_neg h1] at h
  by_cases h2 : liveMetrics gm nodes = []
  · rw [if_pos h2] at h; exact Option.noConfusion h
  rw [if_neg h2] at h
  by_cases h3 : eligibleOf gm nodes = []
  · rw [if_pos h3] at h; exact Option.noConfusion h
  rw [if_neg h3] at h
  cases hp : pickMinBy (fun p => p.2.cpu_usage) (eligibleOf gm nodes) with
  | none =>
    rw [hp] at h
    exact Option.noConfusion h
  | some q =>
    obtain ⟨n2, m⟩ := q
    simp only [hp] at h
    by_cases h4 : n2 = ""
    · rw [if_pos h4] at h; exact Option.noConfusion h
    rw [if_neg h4] at h
    have h5 := Option.some.inj h
    have hnd : n2 = nd := congrArg Prod.fst h5
    have hmem : (n2, m) ∈ eligibleOf gm nodes := pickMinBy_mem _ _ _ hp
    rw [eligibleOf] at hmem
    have hsplit := List.mem_filter.mp hmem
    have hram : m.ram_usage < RAM_THRESHOLD := by simpa using hsplit.2
    have hgm : gm n2 = some m := liveMetrics_mem gm nodes n2 m hsplit.1
    exact ⟨m, hnd ▸ hgm, hram⟩

theorem rrLoop_single_over (gm : String → Option Metric) (fname n : String)
    (m : Metric) (hm : gm n = some m)
    (hover : ¬ m.ram_usage < RAM_THRESHOLD) :
    ∀ idx, rrLoop gm fname [n] idx 1 = (RRResult.noneNoEligible, idx + 1) := by
  intro idx
  rw [rrLoop, if_neg (List.cons_ne_nil n [])]
  simp only [List.length_singleton, Nat.mod_one, List.getD_cons_zero, hm,
    if_neg hover]
  rfl

theorem rrAfterReset_single_over (gm : String → Option Metric) (fname n : String)
    (m : Metric) (hm : gm n = some m)
    (hover : ¬ m.ram_usage < RAM_THRESHOLD) (s1 : RRState)
    (hil : s1.iterList = [n]) :
    rrAfterReset gm fname [n] s1
      = (RRResult.noneNoEligible, RRState.mk [n] (s1.iterIdx + 1) s1.cache) := by
  rw [rrAfterReset, hil]
  show (match rrLoop gm fname [n] s1.iterIdx 1 with
        | (r, idx2) => (r, RRState.mk [n] idx2 s1.cache)) = _
  rw [rrLoop_single_over gm fname n m hm hover s1.iterIdx]

/-- C4 (amended). A node whose most recent probe reports RAM at or above
the threshold is never selected by the modular `RoundRobinPolicy` (the
variant with the RAM filter) nor by the modular `LeastUsedPolicy`; when
it is the only node, both return "no node". (The monolithic `main.py`
`LeastUsedPolicy` has no RAM filter and does select such a node — see
the counterexample.) -/
theorem c4_ram_threshold (gm : String → Option Metric) (fname n : String)
    (m : Metric) (hm : gm n = some m)
    (hover : ¬ m.ram_usage < RAM_THRESHOLD) :
    (∀ nodes s e,
        (RoundRobinPolicy.select_node gm nodes fname s).1 ≠ RRResult.selected n e)
    ∧ (∀ nodes e, LeastUsedPolicy.select_node gm nodes fname ≠ some (n, e))
    ∧ (∀ s : RRState, s.iterList = s.cache →
        (RoundRobinPolicy.select_node gm [n] fname s).1 = RRResult.noneNoEligible)
    ∧ LeastUsedPolicy.select_node gm [n] fname = none := by
  have hsn : sortedNames [n] = [n] := rfl
  refine ⟨?_, ?_, ?_, ?_⟩
  · intro nodes s e h
    by_cases hne : nodes = []
    · rw [RoundRobinPolicy.select_node, if_pos hne] at h
      exact RRResult.noConfusion h
    · rw [RoundRobinPolicy.select_node, if_neg hne, rrAfterReset] at h
      split at h
      rename_i r idx2 heq
      have hsel : (rrLoop gm fname
          (if sortedNames nodes = s.cache then s
           else RRState.mk (sortedNames nodes) 0 (sortedNames nodes)).iterList
          (if sortedNames nodes = s.cache then s
           else RRState.mk (sortedNames nodes) 0 (sortedNames nodes)).iterIdx
          (sortedNames nodes).length).1 = RRResult.selected n e := by
        rw [heq]; exact h
      obtain ⟨m2, hg2, hr2⟩ := rrLoop_selected gm fname _ n e _ _ hsel
      rw [hm] at hg2
      rw [Option.some.inj hg2] at hover
      exact hover hr2
  · intro nodes e h
    obtain ⟨m2, hg2, hr2⟩ := lu_selected gm nodes fname n e h
    rw [hm] at hg2
    rw [Option.some.inj hg2] at hover
    exact hover hr2
  · intro s hinv
    rw [RoundRobinPolicy.select_node, if_neg (List.cons_ne_nil n []), hsn]
    by_cases hc : [n] = s.cache
    · rw [if_pos hc,
        rrAfterReset_single_over gm fname n m hm hover s (by rw [hinv, ← hc])]
    · rw [if_neg hc,
        rrAfterReset_single_over gm fname n m hm hover _ rfl]
  · rw [LeastUsedPolicy.select_node, if_neg (List.cons_ne_nil n [])]
    have hlive : liveMetrics gm [n] = [(n, m)] := by
      rw [liveMetrics]
      simp [hm]
    have helig : eligibleOf gm [n] = [] := by
      rw [eligibleOf, hlive, List.filter_cons]
      simp [hover]
    rw [if_neg (by rw [hlive]; exact List.cons_ne_nil (n, m) []), if_pos helig]

/-- Witness for the amended C4: the single over-threshold node is refused
by both modular policies. -/
theorem c4_witness :
    LeastUsedPolicy.select_node gmOver ["n1"] "f" = none
    ∧ (RoundRobinPolicy.select_node gmOver ["n1"] "f" RRState.init).1
        = RRResult.noneNoEligible := by
  have h := c4_ram_threshold gmOver "f" "n1"
    ⟨((10 : ℚ) : WithTop ℚ), ((95 : ℚ) : WithTop ℚ)⟩ rfl (by decide)
  exact ⟨h.2.2.2, h.2.2.1 RRState.init rfl⟩

theorem halfLoad_coe (a b : ℚ) :
    halfLoad ⟨((a : ℚ) : WithTop ℚ), ((b : ℚ) : WithTop ℚ)⟩
      = (((a + b) / 2 : ℚ) : WithTop ℚ) := by
  rw [halfLoad]
  rw [show ((a : ℚ) : WithTop ℚ) + ((b : ℚ) : WithTop ℚ)
      = (((a + b : ℚ)) : WithTop ℚ) from (WithTop.coe_add a b).symm]
  rw [WithTop.map_coe]

theorem mainLU_single (gm : String → Option Metric) (n : String) (m : Metric)
    (fname : String) (hg : gm n = some m) (hn : n ≠ "")
    (hfin : halfLoad m < (⊤ : WithTop ℚ)) :
    MainLeastUsedPolicy.select_node gm [n] fname
      = some (n, ⟨fname, n, MetricCell.num m.cpu_usage, MetricCell.num m.ram_usage,
          "Least Used - Cold"⟩) := by
  have hlive : liveMetrics gm [n] = [(n, m)] := by
    rw [liveMetrics]
    simp [hg]
  rw [MainLeastUsedPolicy.select_node, if_neg (List.cons_ne_nil n []), hlive]
  rw [if_neg (List.cons_ne_nil (n, m) [])]
  have hfold : mainLUFold [(n, m)] = (halfLoad m, some n) := by
    rw [mainLUFold, List.foldl_cons, List.foldl_nil, if_pos hfin]
  rw [hfold]
  simp only [List.lookup_cons, beq_self_eq_true]
  rw [if_neg hn]

theorem mainLU_pair (gm : String → Option Metric) (a b : String)
    (ma mb : Metric) (fname : String)
    (hga : gm a = some ma) (hgb : gm b = some mb) (hab : b ≠ a) (hb : b ≠ "")
    (hfa : halfLoad ma < (⊤ : WithTop ℚ)) (hlt : halfLoad mb < halfLoad ma) :
    MainLeastUsedPolicy.select_node gm [a, b] fname
      = some (b, ⟨fname, b, MetricCell.num mb.cpu_usage, MetricCell.num mb.ram_usage,
          "Least Used - Cold"⟩) := by
  have hlive : liveMetrics gm [a, b] = [(a, ma), (b, mb)] := by
    rw [liveMetrics]
    simp [hga, hgb]
  rw [MainLeastUsedPolicy.select_node, if_neg (List.cons_ne_nil a [b]), hlive]
  rw [if_neg (List.cons_ne_nil (a, ma) [(b, mb)])]
  have hfold : mainLUFold [(a, ma), (b, mb)] = (halfLoad mb, some b) := by
    rw [mainLUFold, List.foldl_cons, if_pos hfa, List.foldl_cons, if_pos hlt,
      List.foldl_nil]
  rw [hfold]
  have hba : (b == a) = false := beq_false_of_ne hab
  simp only [List.lookup_cons, hba, beq_self_eq_true]
  rw [if_neg hb]

/-- C3. At the concrete metrics A(cpu=1, ram=80), B(cpu=10, ram=10):
the modular `policies.py` `LeastUsedPolicy` selects A (minimal
`cpu_usage`), the monolithic `main.py` `LeastUsedPolicy` selects B, and
B's mean load is strictly the smaller — so the modular variant does not
minimise the arithmetic-mean load score. -/
theorem c3_leastused_divergence :
    (LeastUsedPolicy.select_node gmC3 ["A", "B"] "f").map Prod.fst = some "A"
    ∧ (MainLeastUsedPolicy.select_node gmC3 ["A", "B"] "f").map Prod.fst = some "B"
    ∧ halfLoad ⟨((10 : ℚ) : WithTop ℚ), ((10 : ℚ) : WithTop ℚ)⟩
        < halfLoad ⟨((1 : ℚ) : WithTop ℚ), ((80 : ℚ) : WithTop ℚ)⟩ := by
  have hB := halfLoad_coe 10 10
  have hA := halfLoad_coe 1 80
  have hlt : halfLoad ⟨((10 : ℚ) : WithTop ℚ), ((10 : ℚ) : WithTop ℚ)⟩
      < halfLoad ⟨((1 : ℚ) : WithTop ℚ), ((80 : ℚ) : WithTop ℚ)⟩ := by
    rw [hA, hB, WithTop.coe_lt_coe]
    norm_num
  refine ⟨by decide, ?_, hlt⟩
  rw [mainLU_pair gmC3 "A" "B"
    ⟨((1 : ℚ) : WithTop ℚ), ((80 : ℚ) : WithTop ℚ)⟩
    ⟨((10 : ℚ) : WithTop ℚ), ((10 : ℚ) : WithTop ℚ)⟩ "f"
    rfl rfl (by decide) (by decide)
    (by rw [hA]; exact WithTop.coe_lt_top _) hlt]
  rfl

/-- Counterexample to C4 as stated: the monolithic `main.py`
`LeastUsedPolicy` (cited by the claim) applies no RAM filter and selects
the node reporting ram_usage = 95 at threshold 90 when it is the only
node. -/
theorem c4_counterexample :
    (MainLeastUsedPolicy.select_node gmOver ["n1"] "f").map Prod.fst = some "n1"
    ∧ gmOver "n1" = some ⟨((10 : ℚ) : WithTop ℚ), ((95 : ℚ) : WithTop ℚ)⟩
    ∧ ¬ (((95 : ℚ) : WithTop ℚ) < RAM_THRESHOLD) := by
  refine ⟨?_, rfl, by decide⟩
  rw [mainLU_single gmOver "n1"
    ⟨((10 : ℚ) : WithTop ℚ), ((95 : ℚ) : WithTop ℚ)⟩ "f" rfl (by decide)
    (by rw [halfLoad_coe 10 95]; exact WithTop.coe_lt_top _)]
  rfl

/- ------------------------------------------------------------------ -/
/- C6 / C7: the warming operations.                                    -/
/- ------------------------------------------------------------------ -/

theorem lookup_setAssoc (l : List (String × String)) (k v : String) :
    List.lookup k (setAssoc l k v) = some v := by
  rw [setAssoc]
  cases hl : List.lookup k l with
  | none =>
    rw [lookup_append_of_none l [(k, v)] k hl]
    simp [List.lookup_cons]
  | some w =>
    rw [lookup_map_update l k (fun _ => v), hl]
    rfl

theorem stateOf_setWarmState (reg : WarmRegistry) (fn n v : String) :
    stateOf (setWarmState reg fn n v) fn n = some v := by
  rw [stateOf, setWarmState]
  cases hr : List.lookup fn reg with
  | none =>
    rw [lookup_append_of_none reg [(fn, [(n, v)])] fn hr]
    simp [List.lookup_cons]
  | some fs =>
    rw [lookup_map_update reg fn (fun fs => setAssoc fs n v), hr]
    exact lookup_setAssoc fs n v

/-- C6 (amended). With both names registered, `warmup_function_on_node`
issues exactly one remote command — the detached
`docker run -d --name <prefix><f>--<n> <image> sleep infinity` — and
never a removal of a pre-existing container; on success the warm state of
`(f, n)` becomes `"warmed"`, on failure the registry is unchanged; no
exception reaches the caller. -/
theorem c6_warmup_behaviour (funcs : List (String × FuncInfo))
    (nodesReg : List (String × NodeInfo)) (reg : WarmRegistry)
    (runSSH : String → String → Except String String) (fn n : String)
    (fi : FuncInfo) (ni : NodeInfo)
    (hf : List.lookup fn funcs = some fi)
    (hn : List.lookup n nodesReg = some ni) :
    (warmup_function_on_node funcs nodesReg reg runSSH fn n).1
        = [(n, warmupCmdFor fn n fi.image)]
    ∧ (∀ out, runSSH n (warmupCmdFor fn n fi.image) = Except.ok out →
        stateOf (warmup_function_on_node funcs nodesReg reg runSSH fn n).2.1 fn n
          = some "warmed")
    ∧ (∀ e, runSSH n (warmupCmdFor fn n fi.image) = Except.error e →
        (warmup_function_on_node funcs nodesReg reg runSSH fn n).2.1 = reg)
    ∧ (warmup_function_on_node funcs nodesReg reg runSSH fn n).2.2 = none := by
  cases hr : runSSH n (warmupCmdFor fn n fi.image) with
  | ok out0 =>
    have hw : warmup_function_on_node funcs nodesReg reg runSSH fn n
        = ([(n, warmupCmdFor fn n fi.image)], setWarmState reg fn n "warmed", none) := by
      simp only [warmup_function_on_node, hf, hn, hr]
    rw [hw]
    refine ⟨rfl, ?_, ?_, rfl⟩
    · intro out _
      exact stateOf_setWarmState reg fn n "warmed"
    · intro e he
      exact Except.noConfusion he
  | error e0 =>
    have hw : warmup_function_on_node funcs nodesReg reg runSSH fn n
        = ([(n, warmupCmdFor fn n fi.image)], reg, none) := by
      simp only [warmup_function_on_node, hf, hn, hr]
    rw [hw]
    refine ⟨rfl, ?_, ?_, rfl⟩
    · intro out hout
      exact Except.noConfusion hout
    · intro e _
      rfl

/-- Witness for the amended C6 at a concrete registration. -/
theorem c6_witness :
    (warmup_function_on_node [("f", ⟨"img", "cmd"⟩)] [("n1", niEx)] []
        (fun _ _ => Except.ok "cid") "f" "n1").1
      = [("n1", warmupCmdFor "f" "n1" "img")]
    ∧ stateOf (warmup_function_on_node [("f", ⟨"img", "cmd"⟩)] [("n1", niEx)] []
        (fun _ _ => Except.ok "cid") "f" "n1").2.1 "f" "n1" = some "warmed" := by
  have h := c6_warmup_behaviour [("f", ⟨"img", "cmd"⟩)] [("n1", niEx)] []
    (fun _ _ => Except.ok "cid") "f" "n1" ⟨"img", "cmd"⟩ niEx rfl rfl
  exact ⟨h.1, h.2.1 "cid" rfl⟩

/-- Counterexample to C6 as stated: a successful warmup issues exactly
one command — the full trace is the single `docker run`, so no removal
command precedes it — and the state becomes `"warmed"`. -/
theorem c6_counterexample :
    warmup_function_on_node [("f", ⟨"img", "cmd"⟩)] [("n1", niEx)] []
        (fun _ _ => Except.ok "cid") "f" "n1"
      = ([("n1",
            "sudo docker run -d --name faas-scheduler--f--n1 img sleep infinity")],
         [("f", [("n1", "warmed")])], none) := by
  decide

/-- C7 (amended). With both names registered and the remote image pull
failing, `prewarm_function_on_node` leaves the warm registry unchanged,
attempts the pull exactly once (no retry), and swallows the error: no
exception propagates to the caller of the warming operation. -/
theorem c7_prewarm_failure (funcs : List (String × FuncInfo))
    (nodesReg : List (String × NodeInfo)) (reg : WarmRegistry)
    (runSSH : String → String → Except String String) (fn n : String)
    (fi : FuncInfo) (ni : NodeInfo) (e : String)
    (hf : List.lookup fn funcs = some fi)
    (hn : List.lookup n nodesReg = some ni)
    (herr : runSSH n (pullCmdFor fi.image) = Except.error e) :
    prewarm_function_on_node funcs nodesReg reg runSSH fn n
      = ([(n, pullCmdFor fi.image)], reg, none) := by
  simp only [prewarm_function_on_node, hf, hn, herr]

/-- Witness for the amended C7 at a concrete failing pull. -/
theorem c7_witness :
    prewarm_function_on_node [("f", ⟨"img", "cmd"⟩)] [("n1", niEx)] []
        (fun _ _ => Except.error "pull failed") "f" "n1"
      = ([("n1", pullCmdFor "img")], [], none) :=
  c7_prewarm_failure [("f", ⟨"img", "cmd"⟩)] [("n1", niEx)] []
    (fun _ _ => Except.error "pull failed") "f" "n1" ⟨"img", "cmd"⟩ niEx
    "pull failed" rfl rfl rfl

/-- Counterexample to C7 as stated: on a failed pull nothing is
propagated to the caller (the third component, the escaping exception,
is `none`), while the claim requires the error to be reported. -/
theorem c7_counterexample :
    (prewarm_function_on_node [("f", ⟨"img", "cmd"⟩)] [("n1", niEx)] []
        (fun _ _ => Except.error "pull failed") "f" "n1").2.2 = none
    ∧ (prewarm_function_on_node [("f", ⟨"img", "cmd"⟩)] [("n1", niEx)] []
        (fun _ _ => Except.error "pull failed") "f" "n1").2.1 = [] := by
  decide

/- ------------------------------------------------------------------ -/
/- C9: write_metrics dereferences the unbound node_info.               -/
/- ------------------------------------------------------------------ -/

/-- C9. In the monolithic gateway, whenever the scheduling chain yields a
node with no metrics snapshot (`metric_to_write = None`, the WARMED and
PRE_WARMED stages), even a remotely successful execution ends in the
`except` branch: `write_metrics` evaluates the unbound module global
`node_info`, the `NameError` is caught by `invoke_function`'s handler,
and the invocation is reported to the caller as HTTP 500. -/
theorem c9_warm_path_reports_failure (funcs : List (String × FuncInfo))
    (nodesReg : List (String × NodeInfo)) (reg : WarmRegistry)
    (cold : Option (String × MetricEntry))
    (runSSH : String → String → Except String String)
    (probe : NodeInfo → Option Metric) (uid fn n mode : String)
    (fi : FuncInfo) (ni : NodeInfo) (out : String)
    (hf : List.lookup fn funcs = some fi)
    (hne : nodesReg ≠ [])
    (hchain : WarmedFirstPolicy.select_node reg fn cold
        = ChainResult.ok n none mode)
    (_hmode : mode = "warmed" ∨ mode = "pre-warmed")
    (hn : List.lookup n nodesReg = some ni)
    (hok : runSSH n (invokeCmd fi fn n mode uid) = Except.ok out) :
    invoke_function funcs nodesReg reg cold runSSH probe uid fn
      = InvokeOutcome.httpError 500 "NameError: name node_info is not defined" := by
  simp only [invoke_function, hf, if_neg hne, hchain, hn, hok, write_metrics,
    mainGlobalNodeInfo]

/-- Witness for C9: a warmed entry, a reachable node, a successful remote
exec — the invocation still reports HTTP 500. -/
theorem c9_witness :
    invoke_function [("f", ⟨"img", "cmd"⟩)] [("n1", niEx)]
        [("f", [("n1", "warmed")])] none (fun _ _ => Except.ok "out")
        (fun _ => none) "u1" "f"
      = InvokeOutcome.httpError 500 "NameError: name node_info is not defined" :=
  c9_warm_path_reports_failure [("f", ⟨"img", "cmd"⟩)] [("n1", niEx)]
    [("f", [("n1", "warmed")])] none (fun _ _ => Except.ok "out") (fun _ => none)
    "u1" "f" "n1" "warmed" ⟨"img", "cmd"⟩ niEx "out" rfl (by decide) (by decide)
    (Or.inl rfl) rfl rfl

/- ------------------------------------------------------------------ -/
/- C1: one-shot consumption of a PRE_WARMED entry.                     -/
/- ------------------------------------------------------------------ -/

theorem lookup_consume_none (reg : WarmRegistry) (fn n : String)
    (hr : List.lookup fn reg = none) :
    List.lookup fn (consumePrewarm reg fn n) = none := by
  rw [consumePrewarm,
    lookup_map_update reg fn (fun fs => fs.filter (fun q => q.1 != n)), hr]
  rfl

theorem lookup_consume_some (reg : WarmRegistry) (fn n : String) (fs : FuncStates)
    (hr : List.lookup fn reg = some fs) :
    List.lookup fn (consumePrewarm reg fn n)
      = some (fs.filter (fun q => q.1 != n)) := by
  rw [consumePrewarm,
    lookup_map_update reg fn (fun fs => fs.filter (fun q => q.1 != n)), hr]
  rfl

/-- C1. If an invocation of `fn` resolved through the chain to node `n`
in mode `"pre-warmed"` and its execution succeeded, the modular invoke
handler reverts the `(fn, n)` entry: afterwards the warm state of
`(fn, n)` is COLD (absent), and a second invocation of `fn` does not
observe PRE_WARMED for `n` — for any outcome of the default cold policy
whose entries carry honest cold execution-mode labels. -/
theorem c1_prewarm_consumed (reg : WarmRegistry) (fn n : String)
    (cold cold2 : Option (String × MetricEntry))
    (hsel : WarmedFirstPolicy.select_node reg fn cold
        = ChainResult.ok n none "pre-warmed")
    (hcold2 : ∀ p : String × MetricEntry, cold2 = some p →
        p.2.executionMode ≠ "pre-warmed") :
    (modularInvoke reg fn cold true).2 = consumePrewarm reg fn n
    ∧ stateOf ((modularInvoke reg fn cold true).2) fn n = none
    ∧ ∀ e, WarmedFirstPolicy.select_node ((modularInvoke reg fn cold true).2) fn cold2
        ≠ ChainResult.ok n e "pre-warmed" := by
  have hinv : (modularInvoke reg fn cold true).2 = consumePrewarm reg fn n := by
    simp only [modularInvoke, hsel]
    rw [if_pos (by decide : (true && ("pre-warmed" == "pre-warmed")) = true)]
  refine ⟨hinv, ?_, ?_⟩
  · rw [hinv, stateOf]
    cases hr : List.lookup fn reg with
    | none =>
      rw [lookup_consume_none reg fn n hr]
      rfl
    | some fs =>
      rw [lookup_consume_some reg fn n fs hr, Option.some_bind]
      exact lookup_filter_ne_none fs n
  · intro e h
    rw [hinv] at h
    rw [WarmedFirstPolicy.select_node] at h
    cases hb1 : (List.lookup fn (consumePrewarm reg fn n)).bind
        (fun fs => findNodeWith fs "warmed") with
    | some n1 =>
      rw [hb1] at h
      injection h with h1 h2 h3
      exact absurd h3 (by decide)
    | none =>
      rw [hb1] at h
      rw [PreWarmedFirstPolicy.select_node] at h
      cases hb2 : (List.lookup fn (consumePrewarm reg fn n)).bind
          (fun fs => findNodeWith fs "pre-warmed") with
      | some n2 =>
        rw [hb2] at h
        injection h with h1 h2 h3
        cases hr : List.lookup fn reg with
        | none =>
          rw [lookup_consume_none reg fn n hr] at hb2
          exact Option.noConfusion hb2
        | some fs =>
          rw [lookup_consume_some reg fn n fs hr, Option.some_bind] at hb2
          rw [h1] at hb2
          exact findNodeWith_filter_ne fs n "pre-warmed" hb2
      | none =>
        rw [hb2] at h
        cases hc : cold2 with
        | none =>
          rw [hc] at h
          rw [show DefaultColdPolicy.select_node none = ChainResult.unavailable
            from rfl] at h
          exact ChainResult.noConfusion h
        | some p =>
          obtain ⟨n3, e3⟩ := p
          rw [hc] at h
          rw [show DefaultColdPolicy.select_node (some (n3, e3))
              = ChainResult.ok n3 (some e3) e3.executionMode from rfl] at h
          injection h with h1 h2 h3
          exact hcold2 (n3, e3) hc h3
  
/-- Witness for C1: one pre-warmed entry is consumed by a successful
pre-warmed invocation; the state reverts and a second chain resolution
no longer observes PRE_WARMED for that node. -/
theorem c1_witness :
    stateOf ((modularInvoke [("f", [("n1", "pre-warmed")])] "f" none true).2)
        "f" "n1" = none
    ∧ WarmedFirstPolicy.select_node
        ((modularInvoke [("f", [("n1", "pre-warmed")])] "f" none true).2) "f" none
        ≠ ChainResult.ok "n1" none "pre-warmed" := by
  have h := c1_prewarm_consumed [("f", [("n1", "pre-warmed")])] "f" "n1" none none
    (by decide) (fun p hp => Option.noConfusion hp)
  exact ⟨h.2.1, h.2.2 none⟩

/- ------------------------------------------------------------------ -/
/- C2: the admission gate bounds concurrency to CONCURRENCY_LIMIT.     -/
/- ------------------------------------------------------------------ -/

/-- C2. The admission gate with the configured `CONCURRENCY_LIMIT`:
every reachable gate state holds at most `CONCURRENCY_LIMIT` invocations
inside the critical section; a full gate admits no further entry; after
any one occupant releases, the waiting invocation is admitted; and
release behaves identically on the success and failure paths. -/
theorem c2_admission_gate :
    (∀ s, GateReach CONCURRENCY_LIMIT s →
        s.inside.length ≤ CONCURRENCY_LIMIT)
    ∧ (∀ (s : GateState) (i : Nat), s.inside.length = CONCURRENCY_LIMIT →
        tryEnter CONCURRENCY_LIMIT s i = none)
    ∧ (∀ (s : GateState) (i j : Nat) (b : Bool),
        s.inside.length = CONCURRENCY_LIMIT → j ∈ s.inside →
        tryEnter CONCURRENCY_LIMIT (gateRelease s j b) i
          = some ⟨i :: s.inside.erase j⟩)
    ∧ (∀ (s : GateState) (i : Nat) (b1 b2 : Bool),
        gateRelease s i b1 = gateRelease s i b2) := by
  refine ⟨?_, ?_, ?_, ?_⟩
  · intro s hreach
    induction hreach with
    | init => exact Nat.zero_le _
    | enter hre htry ih =>
      rename_i s0 s1 i
      rw [tryEnter] at htry
      by_cases hlt : s0.inside.length < CONCURRENCY_LIMIT
      · rw [if_pos hlt] at htry
        rw [← Option.some.inj htry]
        exact Nat.succ_le_of_lt hlt
      · rw [if_neg hlt] at htry
        exact Option.noConfusion htry
    | release hre ih =>
      rename_i s0 i b
      rw [gateRelease]
      exact le_trans (List.Sublist.length_le (List.erase_sublist i s0.inside)) ih
  · intro s i hlen
    rw [tryEnter, if_neg (by rw [hlen]; exact Nat.lt_irrefl _)]
  · intro s i j b hlen hmem
    have hlt : (s.inside.erase j).length < CONCURRENCY_LIMIT := by
      have h1 := List.length_erase_add_one hmem
      omega
    have hlt2 : (({ inside := s.inside.erase j } : GateState)).inside.length
        < CONCURRENCY_LIMIT := hlt
    rw [gateRelease, tryEnter, if_pos hlt2]
  · intro s i b1 b2
    rfl

/-- Witness for C2 with the limit 5: a full gate refuses a sixth entry;
after one release the waiting entry is admitted; a small reachable state. -/
theorem c2_witness :
    tryEnter CONCURRENCY_LIMIT ⟨[9, 3, 2, 1, 0]⟩ 7 = none
    ∧ tryEnter CONCURRENCY_LIMIT (gateRelease ⟨[9, 3, 2, 1, 0]⟩ 3 false) 7
        = some ⟨[7, 9, 2, 1, 0]⟩
    ∧ GateReach CONCURRENCY_LIMIT ⟨[0]⟩ := by
  have h := c2_admission_gate
  refine ⟨h.2.1 ⟨[9, 3, 2, 1, 0]⟩ 7 (by decide), ?_, ?_⟩
  · have h2 := h.2.2.1 ⟨[9, 3, 2, 1, 0]⟩ 7 3 false (by decide) (by decide)
    rw [h2]
    decide
  · exact @GateReach.enter CONCURRENCY_LIMIT ⟨[]⟩ ⟨[0]⟩ 0 GateReach.init (by decide)
